import Mathlib

/-!
Verification of the npystream streaming NumPy file writer.

This file gives a shallow embedding of the two source files
src/src/npystream.cpp and src/include/npystream/npystream.hpp.
Byte sequences are modelled as List Nat with every element below 256;
ASCII text constants from the source are written as explicit byte lists
with the text spelled out in the accompanying comment.  Machine
integers of width 64 (uint64_t and size_t on the assumed LP64 host)
are modelled as Nat with reductions modulo 2 to the 64 taken exactly
where the C++ arithmetic can wrap.  The host is taken to be
little-endian, as the spec and the claims fix it; the source rejects
mixed endianness at build time.  Fallible C++ code (throw) is modelled
with Except.
-/

set_option maxRecDepth 200000

namespace NpyVerify

/-- Modulus of 64-bit unsigned arithmetic. -/
def M64 : Nat := 2 ^ 64

/-- Error kinds raised by the embedded code, mirroring the runtime_error
throw sites of the source: the dictionary-size guard in finalize_header,
the argument-length guard in create_npy_header, and the label-count guard
in NpyStream::init. -/
inductive Err where
  | headerTooLarge
  | sizeMismatch
  | layoutMismatch
deriving DecidableEq, Repr

/-- Decidable equality for Except values, used to evaluate the embedded
code on concrete inputs. -/
instance {e a : Type} [DecidableEq e] [DecidableEq a] : DecidableEq (Except e a) := fun x y =>
  match x, y with
  | .error u, .error v =>
    if h : u = v then .isTrue (by rw [h]) else .isFalse (fun c => by cases c; exact h rfl)
  | .error _, .ok _ => .isFalse (fun c => by cases c)
  | .ok _, .error _ => .isFalse (fun c => by cases c)
  | .ok u, .ok v =>
    if h : u = v then .isTrue (by rw [h]) else .isFalse (fun c => by cases c; exact h rfl)

/-- Fuel-driven decimal rendering helper; with fuel at least n it renders
the decimal digits of n as ASCII bytes, most significant first. -/
def decReprAux : Nat → Nat → List Nat
  | 0, n => [48 + n % 10]
  | fuel + 1, n => if n < 10 then [48 + n] else decReprAux fuel (n / 10) ++ [48 + n % 10]

/-- ASCII decimal representation of a natural number, the embedding of
std::to_string on unsigned integers. -/
def decRepr (n : Nat) : List Nat := decReprAux n n

/-- ASCII bytes of the text NUMPY. -/
def strNUMPY : List Nat := [78, 85, 77, 80, 89]

/-- ASCII bytes of the text: left brace, quote, descr, quote, colon, space, quote. -/
def strDescrScalarOpen : List Nat := [123, 39, 100, 101, 115, 99, 114, 39, 58, 32, 39]

/-- ASCII bytes of the text: left brace, quote, descr, quote, colon, space, left bracket. -/
def strDescrStructOpen : List Nat := [123, 39, 100, 101, 115, 99, 114, 39, 58, 32, 91]

/-- ASCII bytes of the text: open paren, quote. -/
def strFieldOpen : List Nat := [40, 39]

/-- ASCII bytes of the text: quote, comma, space, quote. -/
def strFieldMid : List Nat := [39, 44, 32, 39]

/-- ASCII bytes of the text: quote, close paren. -/
def strFieldClose : List Nat := [39, 41]

/-- ASCII bytes of the text: comma, space. -/
def strCommaSpace : List Nat := [44, 32]

/-- ASCII bytes of the text: close bracket, comma, space, quoted fortran_order, colon, space. -/
def strStructMid : List Nat := [93, 44, 32, 39, 102, 111, 114, 116, 114, 97, 110, 95, 111, 114, 100, 101, 114, 39, 58, 32]

/-- ASCII bytes of the text: quote, comma, space, quoted fortran_order, colon, space. -/
def strFortranTag : List Nat := [39, 44, 32, 39, 102, 111, 114, 116, 114, 97, 110, 95, 111, 114, 100, 101, 114, 39, 58, 32]

/-- ASCII bytes of the text True. -/
def strTrue : List Nat := [84, 114, 117, 101]

/-- ASCII bytes of the text False. -/
def strFalse : List Nat := [70, 97, 108, 115, 101]

/-- ASCII bytes of the text: comma, space, quoted shape, colon, space, open paren. -/
def strShapeOpen : List Nat := [44, 32, 39, 115, 104, 97, 112, 101, 39, 58, 32, 40]

/-- ASCII bytes of the text: close paren, comma, space, right brace. -/
def strShapeClose : List Nat := [41, 44, 32, 125]

/-- Rendering of the shape tuple contents: the leading extent, then
comma-space separated further extents, with a trailing comma exactly for
a one-dimensional shape, as in both create_npy_header overloads. -/
def shapeBody (shape : List Nat) : List Nat :=
  match shape with
  | [] => []
  | s0 :: rest =>
      decRepr s0 ++ (rest.map (fun t => strCommaSpace ++ decRepr t)).flatten ++
        (if rest.isEmpty then [44] else [])

/-- Dictionary text of the single-scalar header, embedding the dict built
by the scalar create_npy_header overload.  The dtype byte is preceded by
the little-endian marker byte 60. -/
def scalarDict (shape : List Nat) (dtype wordsize : Nat) (fortranOrder : Bool) : List Nat :=
  strDescrScalarOpen ++ [60, dtype] ++ decRepr wordsize ++ strFortranTag ++
    (if fortranOrder then strTrue else strFalse) ++ strShapeOpen ++ shapeBody shape ++
    strShapeClose

/-- One labelled field entry of the structured dictionary: open paren,
quoted label, separator, marker byte 60, dtype byte, decimal size, close. -/
def fieldEntry (label : List Nat) (dtype size : Nat) : List Nat :=
  strFieldOpen ++ label ++ strFieldMid ++ [60, dtype] ++ decRepr size ++ strFieldClose

/-- Three-way zip used to mirror the indexed loop over equal-length label,
dtype and size vectors. -/
def zip3With (f : List Nat → Nat → Nat → List Nat) :
    List (List Nat) → List Nat → List Nat → List (List Nat)
  | a :: as, b :: bs, c :: cs => f a b c :: zip3With f as bs cs
  | _, _, _ => []

/-- Dictionary text of the structured header, embedding the dict built by
the labelled create_npy_header overload: the comma-space separated field
entries, a trailing comma for a single field, then the fortran_order and
shape clauses. -/
def structuredDict (shape : List Nat) (labels : List (List Nat)) (dtypes sizes : List Nat)
    (fortranOrder : Bool) : List Nat :=
  strDescrStructOpen ++
    (List.intersperse strCommaSpace (zip3With fieldEntry labels dtypes sizes)).flatten ++
    (if dtypes.length == 1 then [44] else []) ++ strStructMid ++
    (if fortranOrder then strTrue else strFalse) ++ strShapeOpen ++ shapeBody shape ++
    strShapeClose

/-- The ten-byte header preamble: magic byte 147, NUMPY, major version 1,
minor version 0, and the dictionary length as two little-endian bytes
after truncation to sixteen bits. -/
def preamble (l : Nat) : List Nat :=
  [147] ++ strNUMPY ++ [1, 0] ++ [l % 256, l / 256 % 256]

/-- The dictionary after the in-place mutation of finalize_header: the
space padding bringing ten plus the length to a multiple of sixteen is
appended, then the final byte is overwritten with a newline. -/
def padDict (dict : List Nat) : List Nat :=
  (dict ++ List.replicate (16 - (10 + dict.length) % 16) 32).dropLast ++ [10]

/-- Embedding of finalize_header: pad the dictionary with spaces so that
ten plus its length is a multiple of sixteen, overwrite the final byte
with a newline, reject dictionaries longer than 65535 bytes, and prepend
the preamble. -/
def finalize_header (dict : List Nat) : Except Err (List Nat) :=
  if 0xffff < (padDict dict).length then .error .headerTooLarge
  else .ok (preamble (padDict dict).length ++ padDict dict)

/-- Embedding of the scalar create_npy_header overload. -/
def create_npy_header (shape : List Nat) (dtype wordsize : Nat) (fortranOrder : Bool) :
    Except Err (List Nat) :=
  finalize_header (scalarDict shape dtype wordsize fortranOrder)

/-- Embedding of the labelled create_npy_header overload, including its
equal-length guard on the argument vectors. -/
def create_npy_header_structured (shape : List Nat) (labels : List (List Nat))
    (dtypes sizes : List Nat) (fortranOrder : Bool) : Except Err (List Nat) :=
  if labels.length != dtypes.length || dtypes.length != sizes.length ||
      sizes.length != labels.length then
    .error .sizeMismatch
  else
    finalize_header (structuredDict shape labels dtypes sizes fortranOrder)

/-- The header rendered for a given element count: the branch shared by
wrap_up, choosing the scalar overload for an empty label vector and the
structured overload otherwise, always with C memory order. -/
def renderHeader (labels : List (List Nat)) (dtypes sizes : List Nat) (count : Nat) :
    Except Err (List Nat) :=
  if labels.length == 0 then
    create_npy_header [count] (dtypes.headD 0) (sizes.headD 0) false
  else
    create_npy_header_structured [count] labels dtypes sizes false

/-- The padding insertion of wrap_up: the missing length, computed with
64-bit wrapping subtraction, is inserted as spaces immediately before
the last byte of the re-rendered header. -/
def padTo (header_end_pos : Nat) (updated : List Nat) : List Nat :=
  updated.take (updated.length - 1) ++
    List.replicate ((header_end_pos + M64 - updated.length) % M64) 32 ++
    updated.drop (updated.length - 1)

/-- The byte-level length patch of wrap_up: write the quotient by 256 of
the length minus ten (cast to a byte) at index 7 and the remainder at
index 8. -/
def patchLenBytes (padded : List Nat) : List Nat :=
  (padded.set 7 ((padded.length - 10) / 256 % 256)).set 8 ((padded.length - 10) % 256)

/-- Embedding of wrap_up: re-render the header for the true element
count, insert space padding immediately before the final byte so the
length reaches header_end_pos, then overwrite bytes 7 and 8 with the
quotient and remainder by 256 of the total length minus ten, exactly as
the source does. -/
def wrap_up (values_written header_end_pos : Nat) (labels : List (List Nat))
    (dtypes sizes : List Nat) : Except Err (List Nat) :=
  match renderHeader labels dtypes sizes values_written with
  | .error e => .error e
  | .ok updated => .ok (patchLenBytes (padTo header_end_pos updated))

/-- The bytes actually written to the fresh file by NpyStream::init:
the rendered placeholder header with every byte from index 8 on
overwritten by zero. -/
def initBytes (header : List Nat) : List Nat :=
  header.take 8 ++ List.replicate (header.length - 8) 0

/-- Stream state of an open NpyStream: the bytes written to the file so
far, the reserved header length, the running 64-bit element count, and
the in-memory record buffer (the filled slots, in order). -/
structure StreamState where
  fileBytes : List Nat
  header_end_pos : Nat
  values_written : Nat
  buffer : List (List Nat)
deriving DecidableEq, Repr

/-- Field layout of a stream: labels (empty for the unlabelled scalar
case), one-character dtype codes, and per-field byte sizes. -/
structure Layout where
  labels : List (List Nat)
  dtypes : List Nat
  sizes : List Nat
deriving DecidableEq, Repr

/-- Modelled from the spec: tuple_util.hpp is not under src, and the spec
defines the record stride as the sum of the per-field byte sizes, with
fields packed sequentially and no alignment padding. -/
def sum_sizes (sizes : List Nat) : Nat := sizes.sum

/-- Record stride of a layout. -/
def Layout.stride (L : Layout) : Nat := sum_sizes L.sizes

/-- Embedding of the buffer_capacity constant of NpyStream: the maximum
of one and 256 divided by the record stride. -/
def buffer_capacity (sizes : List Nat) : Nat := max 1 (256 / sum_sizes sizes)

/-- Buffer capacity of a layout, in records. -/
def Layout.capacity (L : Layout) : Nat := buffer_capacity L.sizes

/-- Embedding of NpyStream::init: validate the label count against the
tuple size, render the placeholder header for the maximum 64-bit count,
and write it with bytes 8 and later zeroed.  An error is raised before
any file state is produced, so the error branch carries no stream. -/
def NpyStream.init (labels : List (List Nat)) (tupleSize : Nat) (dtypes sizes : List Nat) :
    Except Err StreamState :=
  match
    (if labels.length == 0 then
      if tupleSize == 1 then
        create_npy_header [M64 - 1] (dtypes.headD 0) (sizes.headD 0) false
      else
        .error Err.layoutMismatch
    else
      if labels.length != tupleSize then
        .error Err.layoutMismatch
      else
        create_npy_header_structured [M64 - 1] labels dtypes sizes false : Except Err (List Nat))
  with
  | .error e => .error e
  | .ok header =>
    .ok { fileBytes := initBytes header, header_end_pos := header.length,
          values_written := 0, buffer := [] }

/-- Embedding of NpyStream::flush_buffer: append the filled buffer slots
to the file and reset the buffer.  The source writes buffer_size times
the record stride bytes from the contiguous two-dimensional array, which
for well-formed records is exactly the concatenation of the filled
slots; its static_assert on sizeof(buffer) guarantees the flat layout. -/
def flush_buffer (s : StreamState) : StreamState :=
  { s with fileBytes := s.fileBytes ++ s.buffer.flatten, buffer := [] }

/-- Embedding of the tuple operator<<: store the serialized record in
the next buffer slot, flush if the buffer just became full, and bump the
64-bit element count. -/
def pushRecord (L : Layout) (s : StreamState) (rec : List Nat) : StreamState :=
  let s1 := { s with buffer := s.buffer ++ [rec] }
  let s2 := if s1.buffer.length == L.capacity then flush_buffer s1 else s1
  { s2 with values_written := (s2.values_written + 1) % M64 }

/-- Embedding of the span write overload: flush a non-empty buffer, then
append the whole serialized block directly and add its record count to
the 64-bit element count. -/
def writeBlock (s : StreamState) (data : List (List Nat)) : StreamState :=
  let s1 := if s.buffer.length == 0 then s else flush_buffer s
  { s1 with fileBytes := s1.fileBytes ++ data.flatten,
            values_written := (s1.values_written + data.length) % M64 }

/-- One public mutating operation on an open stream. -/
inductive Op where
  | push (rec : List Nat)
  | block (data : List (List Nat))
  | flushOp
deriving DecidableEq, Repr

/-- Apply one operation to the stream state. -/
def applyOp (L : Layout) (s : StreamState) : Op → StreamState
  | .push rec => pushRecord L s rec
  | .block data => writeBlock s data
  | .flushOp => flush_buffer s

/-- Run a sequence of operations from left to right. -/
def runOps (L : Layout) (s : StreamState) (ops : List Op) : StreamState :=
  ops.foldl (applyOp L) s

/-- Number of records appended by one operation. -/
def Op.count : Op → Nat
  | .push _ => 1
  | .block data => data.length
  | .flushOp => 0

/-- Records appended by one operation, in order. -/
def Op.recs : Op → List (List Nat)
  | .push rec => [rec]
  | .block data => data
  | .flushOp => []

/-- Total number of records appended by a sequence of operations. -/
def countRecords (ops : List Op) : Nat := (ops.map Op.count).sum

/-- All records appended by a sequence of operations, in order. -/
def opsRecords (ops : List Op) : List (List Nat) := (ops.map Op.recs).flatten

/-- Every record fed to the operations has the layout record stride as
its length. -/
def wfOps (stride : Nat) (ops : List Op) : Prop :=
  ∀ op ∈ ops, ∀ r ∈ op.recs, r.length = stride

/-- The well-formedness of an operation list is decidable, so concrete
instances can be checked by evaluation. -/
instance (stride : Nat) (ops : List Op) : Decidable (wfOps stride ops) :=
  inferInstanceAs (Decidable (∀ op ∈ ops, ∀ r ∈ op.recs, r.length = stride))

/-- Embedding of the NpyStream destructor: flush the buffer, then seek
to position zero and overwrite the start of the file with the patched
final header.  The result is the final byte content of the file. -/
def closeStream (L : Layout) (s : StreamState) : Except Err (List Nat) :=
  let s1 := flush_buffer s
  match wrap_up s1.values_written s1.header_end_pos L.labels L.dtypes L.sizes with
  | .error e => .error e
  | .ok w => .ok (w ++ s1.fileBytes.drop w.length)

/-- File bytes and buffered-but-unwritten bytes of a state, in order:
the content the file would have after a flush. -/
def liveBytes (s : StreamState) : List Nat := s.fileBytes ++ s.buffer.flatten

/-- Space padding the dictionary receives in finalize_header: at least
one byte, at most sixteen. -/
def remOf (n : Nat) : Nat := 16 - (10 + n) % 16

/-- Length of the padded dictionary produced by finalize_header from a
dictionary of length n. -/
def padLen (n : Nat) : Nat := n + remOf n

/-- Boolean test that one byte list starts with another. -/
def startsWithBytes : List Nat → List Nat → Bool
  | [], _ => true
  | _ :: _, [] => false
  | p :: ps, l :: ls => p == l && startsWithBytes ps ls

/-- Boolean test that a byte list occurs contiguously inside another. -/
def containsBytes (pat : List Nat) : List Nat → Bool
  | [] => startsWithBytes pat []
  | l :: ls => startsWithBytes pat (l :: ls) || containsBytes pat ls

/-- The shape clause a one-dimensional header of count k carries: the
shape tag, the decimal count, and the trailing comma. -/
def shapeMark (k : Nat) : List Nat := strShapeOpen ++ decRepr k ++ [44]

/-- Everything in the rendered dictionary that precedes the shape clause,
for the layout branch wrap_up and init select: the scalar descr clause
for an empty label vector, the structured descr clause otherwise, both
with C memory order. -/
def dictFrontCore (labels : List (List Nat)) (dtypes sizes : List Nat) : List Nat :=
  if labels.length == 0 then
    strDescrScalarOpen ++ [60, dtypes.headD 0] ++ decRepr (sizes.headD 0) ++ strFortranTag ++
      strFalse
  else
    strDescrStructOpen ++
      (List.intersperse strCommaSpace (zip3With fieldEntry labels dtypes sizes)).flatten ++
      (if dtypes.length == 1 then [44] else []) ++ strStructMid ++ strFalse

/-- The full dictionary rendered for count k by the branch of wrap_up. -/
def dictFor (labels : List (List Nat)) (dtypes sizes : List Nat) (k : Nat) : List Nat :=
  dictFrontCore labels dtypes sizes ++ shapeMark k ++ strShapeClose

/-- The equal-length guard of the structured overload, satisfied or
bypassed: an empty label vector selects the scalar overload, otherwise
the three argument vectors agree in length. -/
def okLayout (labels : List (List Nat)) (dtypes sizes : List Nat) : Prop :=
  labels.length = 0 ∨ (labels.length = dtypes.length ∧ dtypes.length = sizes.length)

/-- First byte list of a successful run, empty on error. -/
def okBytes (e : Except Err (List Nat)) : List Nat :=
  match e with
  | .ok l => l
  | .error _ => []

/-- Whether a run succeeded. -/
def isOk (e : Except Err (List Nat)) : Bool :=
  match e with
  | .ok _ => true
  | .error _ => false

/-- File content right after a successful construction, empty on error. -/
def initFile (e : Except Err StreamState) : List Nat :=
  match e with
  | .ok s => s.fileBytes
  | .error _ => []

/-- Reserved header length of a successful construction, zero on error. -/
def initHep (e : Except Err StreamState) : Nat :=
  match e with
  | .ok s => s.header_end_pos
  | .error _ => 0

/-- The placeholder header rendered for the scalar little-endian f8
layout at the maximum 64-bit count, as the embedded code produces it. -/
def placeholderF8 : List Nat :=
  [147, 78, 85, 77, 80, 89, 1, 0, 86, 0, 123, 39, 100, 101, 115, 99, 114, 39, 58, 32, 39, 60,
   102, 56, 39, 44, 32, 39, 102, 111, 114, 116, 114, 97, 110, 95, 111, 114, 100, 101, 114, 39,
   58, 32, 70, 97, 108, 115, 101, 44, 32, 39, 115, 104, 97, 112, 101, 39, 58, 32, 40, 49, 56,
   52, 52, 54, 55, 52, 52, 48, 55, 51, 55, 48, 57, 53, 53, 49, 54, 49, 53, 44, 41, 44, 32, 125,
   32, 32, 32, 32, 32, 32, 32, 32, 32, 10]

/-- The scalar f8 layout. -/
def layoutF8 : Layout := ⟨[], [102], [8]⟩

/-- The stream state right after constructing a scalar f8 stream. -/
def streamF8 : StreamState := ⟨initBytes placeholderF8, 96, 0, []⟩

/-- Operation sequence for the concrete round-trip check: one buffered
push followed by one block write of two records. -/
def ops8 : List Op :=
  [Op.push [1, 0, 0, 0, 0, 0, 0, 0],
   Op.block [[2, 0, 0, 0, 0, 0, 0, 0], [3, 0, 0, 0, 0, 0, 0, 0]]]

/-- A 169-character label, long enough that the padded dictionary
exceeds 255 bytes. -/
def label169 : List Nat := List.replicate 169 97

/-- Single-field structured layout with the long label. -/
def layout169 : Layout := ⟨[label169], [102], [8]⟩

/-- Construct the long-label stream and close it immediately: the final
file bytes of a zero-record stream. -/
def run169 : Except Err (List Nat) :=
  match NpyStream.init [label169] 1 [102] [8] with
  | .error e => .error e
  | .ok s0 => closeStream layout169 s0

/-- Modelled from the spec: map_type.hpp and tuple_util.hpp are not
under src; the spec says each field of a record is copied verbatim in
native (little-endian) byte order to its precomputed offset, fields
packed sequentially with no alignment padding.  leBytes w v gives the w
little-endian bytes of the value v. -/
def leBytes : Nat → Nat → List Nat
  | 0, _ => []
  | w + 1, v => v % 256 :: leBytes w (v / 256)

/-- Modelled from the spec: a record serializes as the concatenation of
the little-endian bytes of each field value, in declared field order,
each field given as a size and value pair. -/
def fillRecord (fields : List (Nat × Nat)) : List Nat :=
  (fields.map (fun f => leBytes f.1 f.2)).flatten

/-- IEEE-754 binary32 bit pattern assembled from a sign bit, an
exponent field and a fraction field. -/
def float32bits (sign expField frac : Nat) : Nat :=
  sign * 2 ^ 31 + expField * 2 ^ 23 + frac

/-- The serialized record of the tuple of int32 value 7 and float
value 2.5. -/
def rec6 : List Nat := fillRecord [(4, 7), (4, float32bits 0 128 2097152)]

/-- Two-field structured layout: label a with int32, label b with
float32. -/
def layout6 : Layout := ⟨[[97], [98]], [105, 102], [4, 4]⟩

/-- ASCII bytes of the expected descr list text for layout6: bracketed
pairs of quoted label and quoted little-endian dtype code with size. -/
def descr6 : List Nat :=
  [91, 40, 39, 97, 39, 44, 32, 39, 60, 105, 52, 39, 41, 44, 32, 40, 39, 98, 39, 44, 32, 39,
   60, 102, 52, 39, 41, 93]

/-- Construct the two-field stream, append one record, close, and
return the final file bytes. -/
def run6 : Except Err (List Nat) :=
  match NpyStream.init [[97], [98]] 2 [105, 102] [4, 4] with
  | .error e => .error e
  | .ok s0 => closeStream layout6 (pushRecord layout6 s0 rec6)


/-- The decimal rendering helper has one digit per power of ten, provided
the fuel covers the argument. -/
theorem decReprAux_length (fuel n : Nat) (h : n ≤ fuel) :
    (decReprAux fuel n).length = Nat.log 10 n + 1 := by
  induction fuel generalizing n with
  | zero =>
    have hn : n = 0 := Nat.le_zero.mp h
    subst hn
    simp [decReprAux, Nat.log_zero_right]
  | succ fuel ih =>
    by_cases h10 : n < 10
    · simp [decReprAux, h10, Nat.log_of_lt h10]
    · have hge : 10 ≤ n := Nat.le_of_not_lt h10
      have hdivlt : n / 10 < n := Nat.div_lt_self (by omega) (by omega)
      have hdivle : n / 10 ≤ fuel := by omega
      have hpos : 0 < Nat.log 10 n := Nat.log_pos (by norm_num) hge
      have hdb : Nat.log 10 (n / 10) = Nat.log 10 n - 1 := Nat.log_div_base 10 n
      simp only [decReprAux, if_neg h10, List.length_append, List.length_cons,
        List.length_nil, ih (n / 10) hdivle, hdb]
      omega

/-- Length of the decimal representation of a natural number. -/
theorem decRepr_length (n : Nat) : (decRepr n).length = Nat.log 10 n + 1 :=
  decReprAux_length n n (Nat.le_refl n)

/-- Rendering a smaller count never takes more digits. -/
theorem decRepr_length_mono {m n : Nat} (h : m ≤ n) :
    (decRepr m).length ≤ (decRepr n).length := by
  simp only [decRepr_length]
  exact Nat.add_le_add_right (Nat.log_mono_right h) 1

/-- The space padding inserted by finalize_header is between one and
sixteen bytes. -/
theorem remOf_pos (n : Nat) : 1 ≤ remOf n ∧ remOf n ≤ 16 := by
  unfold remOf
  omega

/-- Closed form of the padded dictionary length. -/
theorem padLen_eq (n : Nat) : padLen n = 16 * ((10 + n) / 16) + 6 := by
  unfold padLen remOf
  omega

/-- Padded dictionary length is monotone in the dictionary length. -/
theorem padLen_mono {m n : Nat} (h : m ≤ n) : padLen m ≤ padLen n := by
  rw [padLen_eq, padLen_eq]
  have : (10 + m) / 16 ≤ (10 + n) / 16 := Nat.div_le_div_right (by omega)
  omega

/-- The padded dictionary length is at least six and exceeds the raw
dictionary length. -/
theorem padLen_ge (n : Nat) : n + 1 ≤ padLen n ∧ 6 ≤ padLen n := by
  unfold padLen remOf
  omega

/-- The padded dictionary equals the dictionary, the surviving spaces,
and the final newline. -/
theorem padDict_eq (dict : List Nat) :
    padDict dict = dict ++ List.replicate (remOf dict.length - 1) 32 ++ [10] := by
  obtain ⟨m, hm⟩ : ∃ m, remOf dict.length = m + 1 :=
    ⟨remOf dict.length - 1, by have := remOf_pos dict.length; omega⟩
  have hrw : 16 - (10 + dict.length) % 16 = m + 1 := hm
  unfold padDict
  rw [hrw, List.replicate_succ', ← List.append_assoc, List.dropLast_concat, hm]
  simp

/-- Length of the padded dictionary. -/
theorem padDict_length (dict : List Nat) : (padDict dict).length = padLen dict.length := by
  rw [padDict_eq]
  have := remOf_pos dict.length
  simp [padLen]
  omega

/-- Shape of a successful finalize_header run: the preamble for the
padded length, the dictionary, the inserted spaces, and the final
newline. -/
theorem finalize_header_eq (dict : List Nat) (h : padLen dict.length ≤ 0xffff) :
    finalize_header dict =
      .ok (preamble (padLen dict.length) ++
        (dict ++ List.replicate (remOf dict.length - 1) 32 ++ [10])) := by
  unfold finalize_header
  rw [padDict_length, if_neg (by omega), padDict_eq]

/-- A successful finalize_header run certifies the sixteen-bit bound and
determines the header length. -/
theorem finalize_header_ok (dict h : List Nat) (hok : finalize_header dict = .ok h) :
    padLen dict.length ≤ 0xffff ∧ h.length = 10 + padLen dict.length := by
  unfold finalize_header at hok
  rw [padDict_length] at hok
  by_cases hbig : 0xffff < padLen dict.length
  · rw [if_pos hbig] at hok
    exact absurd hok (by simp)
  · rw [if_neg hbig] at hok
    have hh : h = preamble (padLen dict.length) ++ padDict dict := by
      have := hok
      simp at this
      exact this.symm
    constructor
    · omega
    · rw [hh]
      simp [preamble, strNUMPY, padDict_length]
      omega

/-- The scalar dictionary for a singleton shape splits into front, shape
mark and closing text. -/
theorem scalarDict_decomp (k d w : Nat) :
    scalarDict [k] d w false =
      (strDescrScalarOpen ++ [60, d] ++ decRepr w ++ strFortranTag ++ strFalse) ++
        shapeMark k ++ strShapeClose := by
  simp [scalarDict, shapeBody, shapeMark, List.append_assoc]

/-- The structured dictionary for a singleton shape splits into front,
shape mark and closing text. -/
theorem structuredDict_decomp (labels : List (List Nat)) (dtypes sizes : List Nat) (k : Nat) :
    structuredDict [k] labels dtypes sizes false =
      (strDescrStructOpen ++
        (List.intersperse strCommaSpace (zip3With fieldEntry labels dtypes sizes)).flatten ++
        (if dtypes.length == 1 then [44] else []) ++ strStructMid ++ strFalse) ++
        shapeMark k ++ strShapeClose := by
  simp [structuredDict, shapeBody, shapeMark, List.append_assoc]

/-- On a layout passing the guard, rendering the header for any count is
finalizing the uniform dictionary. -/
theorem renderHeader_eq_finalize (labels : List (List Nat)) (dtypes sizes : List Nat) (k : Nat)
    (h : okLayout labels dtypes sizes) :
    renderHeader labels dtypes sizes k = finalize_header (dictFor labels dtypes sizes k) := by
  rcases h with h0 | ⟨h1, h2⟩
  · unfold renderHeader create_npy_header dictFor dictFrontCore
    rw [if_pos (by simpa using h0), if_pos (by simpa using h0), scalarDict_decomp]
  · by_cases h0 : labels.length = 0
    · unfold renderHeader create_npy_header dictFor dictFrontCore
      rw [if_pos (by simpa using h0), if_pos (by simpa using h0), scalarDict_decomp]
    · have hnil : labels ≠ [] := by
        intro hh
        exact h0 (by simp [hh])
      unfold renderHeader create_npy_header_structured dictFor dictFrontCore
      rw [if_neg (by simpa using hnil), if_neg (by simp [h1, h2]),
        if_neg (by simpa using hnil), structuredDict_decomp]

/-- A successful render certifies the layout guard. -/
theorem okLayout_of_render (labels : List (List Nat)) (dtypes sizes : List Nat) (k : Nat)
    (H : List Nat) (h : renderHeader labels dtypes sizes k = .ok H) :
    okLayout labels dtypes sizes := by
  by_cases h0 : labels.length = 0
  · exact Or.inl h0
  · refine Or.inr ?_
    unfold renderHeader create_npy_header_structured at h
    rw [if_neg (by simpa using h0)] at h
    by_cases hck : labels.length != dtypes.length || dtypes.length != sizes.length ||
        sizes.length != labels.length
    · rw [if_pos hck] at h
      exact absurd h (by simp)
    · simp only [Bool.or_eq_true, bne_iff_ne, ne_eq, not_or, Decidable.not_not] at hck
      exact ⟨hck.1.1, hck.1.2⟩

/-- Length of the uniform dictionary as a function of the count digits. -/
theorem dictFor_length (labels : List (List Nat)) (dtypes sizes : List Nat) (k : Nat) :
    (dictFor labels dtypes sizes k).length =
      (dictFrontCore labels dtypes sizes).length + (decRepr k).length + 17 := by
  simp [dictFor, shapeMark, strShapeOpen, strShapeClose]
  omega

/-- Rendering a smaller count yields a dictionary no longer than that of
a larger count. -/
theorem dictFor_length_mono (labels : List (List Nat)) (dtypes sizes : List Nat) {j k : Nat}
    (h : j ≤ k) :
    (dictFor labels dtypes sizes j).length ≤ (dictFor labels dtypes sizes k).length := by
  rw [dictFor_length, dictFor_length]
  have := decRepr_length_mono h
  omega

/-- Core monotonicity result: once the placeholder header for the
maximum 64-bit count renders successfully, the header for every smaller
count also renders, is no longer, and has the padded-dictionary shape. -/
theorem renderHeader_ok_of_le (labels : List (List Nat)) (dtypes sizes : List Nat)
    (H : List Nat) (hmax : renderHeader labels dtypes sizes (M64 - 1) = .ok H)
    (k : Nat) (hk : k ≤ M64 - 1) :
    renderHeader labels dtypes sizes k =
      .ok (preamble (padLen (dictFor labels dtypes sizes k).length) ++
        (dictFor labels dtypes sizes k ++
          List.replicate (remOf (dictFor labels dtypes sizes k).length - 1) 32 ++ [10])) ∧
    10 + padLen (dictFor labels dtypes sizes k).length ≤ H.length := by
  have hok := okLayout_of_render labels dtypes sizes (M64 - 1) H hmax
  rw [renderHeader_eq_finalize labels dtypes sizes (M64 - 1) hok] at hmax
  obtain ⟨hbound, hHlen⟩ := finalize_header_ok _ _ hmax
  have hmono := padLen_mono (dictFor_length_mono labels dtypes sizes hk)
  constructor
  · rw [renderHeader_eq_finalize labels dtypes sizes k hok]
    exact finalize_header_eq _ (by omega)
  · omega

/-- Length of the ten-byte preamble. -/
theorem preamble_length (l : Nat) : (preamble l).length = 10 := by
  simp [preamble, strNUMPY]

/-- The length patch does not change the length. -/
theorem patchLenBytes_length (l : List Nat) : (patchLenBytes l).length = l.length := by
  simp [patchLenBytes]

/-- Any successfully rendered header is at most 65545 bytes long. -/
theorem renderHeader_ok_len_le (labels : List (List Nat)) (dtypes sizes : List Nat) (k : Nat)
    (H : List Nat) (h : renderHeader labels dtypes sizes k = .ok H) : H.length ≤ 65545 := by
  have hok := okLayout_of_render labels dtypes sizes k H h
  rw [renderHeader_eq_finalize labels dtypes sizes k hok] at h
  obtain ⟨hb, hl⟩ := finalize_header_ok _ _ h
  omega

/-- Patching the length bytes of a list with a ten-byte prefix rewrites
only that prefix. -/
theorem patchLenBytes_append10 (pre rest : List Nat) (hlen : pre.length = 10) :
    patchLenBytes (pre ++ rest) =
      (pre.set 7 (((pre ++ rest).length - 10) / 256 % 256)).set 8
        (((pre ++ rest).length - 10) % 256) ++ rest := by
  unfold patchLenBytes
  rw [List.set_append_left _ _ (by omega), List.set_append_left _ _ (by simp; omega)]

/-- Behaviour of wrap_up under the reservation discipline: when the
placeholder header for the maximum count rendered successfully and the
reserved length is its length, wrap_up for any smaller count succeeds,
produces exactly the reserved number of bytes, and its output carries
the shape clause of the true count. -/
theorem wrap_up_spec (labels : List (List Nat)) (dtypes sizes : List Nat) (H : List Nat)
    (hmax : renderHeader labels dtypes sizes (M64 - 1) = .ok H) (k : Nat) (hk : k < M64) :
    ∃ W, wrap_up k H.length labels dtypes sizes = .ok W ∧ W.length = H.length ∧
      ∃ u v, W = u ++ shapeMark k ++ v := by
  obtain ⟨hrk, hle⟩ := renderHeader_ok_of_le labels dtypes sizes H hmax k (by omega)
  have hHle : H.length ≤ 65545 := renderHeader_ok_len_le labels dtypes sizes (M64 - 1) H hmax
  have hp6 := padLen_ge (dictFor labels dtypes sizes k).length
  set D := dictFor labels dtypes sizes k with hD
  set p := padLen D.length with hp
  set r := remOf D.length with hr
  have hprel : p = D.length + r := by rw [hp, hr]; rfl
  have hr1 : 1 ≤ r ∧ r ≤ 16 := by rw [hr]; exact remOf_pos D.length
  set Hk := preamble p ++ (D ++ List.replicate (r - 1) 32 ++ [10]) with hHk
  have hsplit : Hk = (preamble p ++ D ++ List.replicate (r - 1) 32) ++ [10] := by
    simp [hHk, List.append_assoc]
  have hnlen : Hk.length = 10 + p := by
    simp [hHk, preamble_length]
    omega
  have htake : Hk.take (Hk.length - 1) = preamble p ++ D ++ List.replicate (r - 1) 32 := by
    rw [hsplit]
    exact List.take_left' (by simp; omega)
  have hdrop : Hk.drop (Hk.length - 1) = [10] := by
    rw [hsplit]
    exact List.drop_left' (by simp; omega)
  have hlmp : (H.length + M64 - Hk.length) % M64 = H.length - Hk.length := by
    have h1 : Hk.length ≤ H.length := by omega
    have h2 : H.length < M64 := by unfold M64; omega
    unfold M64 at *
    omega
  have hpadded : padTo H.length Hk =
      preamble p ++ (D ++ List.replicate (r - 1) 32 ++
        List.replicate (H.length - Hk.length) 32 ++ [10]) := by
    unfold padTo
    rw [htake, hdrop, hlmp]
    simp [List.append_assoc]
  have hpadlen : (padTo H.length Hk).length = H.length := by
    rw [hpadded]
    simp [preamble_length]
    omega
  refine ⟨patchLenBytes (padTo H.length Hk), ?_, ?_, ?_⟩
  · unfold wrap_up
    rw [hrk]
  · rw [patchLenBytes_length, hpadlen]
  · obtain ⟨a, b, hW⟩ : ∃ a b, patchLenBytes (padTo H.length Hk) =
        ((preamble p).set 7 a).set 8 b ++
          (D ++ List.replicate (r - 1) 32 ++
            List.replicate (H.length - Hk.length) 32 ++ [10]) := by
      rw [hpadded, patchLenBytes_append10 _ _ (preamble_length p)]
      exact ⟨_, _, rfl⟩
    refine ⟨((preamble p).set 7 a).set 8 b ++ dictFrontCore labels dtypes sizes,
      strShapeClose ++ (List.replicate (r - 1) 32 ++
        List.replicate (H.length - Hk.length) 32 ++ [10]), ?_⟩
    rw [hW]
    simp [hD, dictFor, List.append_assoc]

/-- A successful construction renders the maximum-count placeholder and
starts with the zero-filled header bytes, a zero count and an empty
buffer. -/
theorem init_ok (labels : List (List Nat)) (tupleSize : Nat) (dtypes sizes : List Nat)
    (s0 : StreamState) (h : NpyStream.init labels tupleSize dtypes sizes = .ok s0) :
    ∃ H, renderHeader labels dtypes sizes (M64 - 1) = .ok H ∧
      s0 = ⟨initBytes H, H.length, 0, []⟩ := by
  by_cases h0 : labels.length = 0
  · by_cases h1 : tupleSize = 1
    · unfold NpyStream.init at h
      rw [if_pos (by simpa using h0), if_pos (by simpa using h1)] at h
      unfold renderHeader
      rw [if_pos (by simpa using h0)]
      cases hc : create_npy_header [M64 - 1] (dtypes.headD 0) (sizes.headD 0) false with
      | error e => rw [hc] at h; exact absurd h (by simp)
      | ok H =>
        rw [hc] at h
        simp only [Except.ok.injEq] at h
        exact ⟨H, rfl, h.symm⟩
    · unfold NpyStream.init at h
      rw [if_pos (by simpa using h0), if_neg (by simpa using h1)] at h
      exact absurd h (by simp)
  · by_cases h1 : labels.length = tupleSize
    · unfold NpyStream.init at h
      rw [if_neg (by simpa using h0), if_neg (by simp [h1])] at h
      unfold renderHeader
      rw [if_neg (by simpa using h0)]
      cases hc : create_npy_header_structured [M64 - 1] labels dtypes sizes false with
      | error e => rw [hc] at h; exact absurd h (by simp)
      | ok H =>
        rw [hc] at h
        simp only [Except.ok.injEq] at h
        exact ⟨H, rfl, h.symm⟩
    · unfold NpyStream.init at h
      rw [if_neg (by simpa using h0), if_pos (by simpa using h1)] at h
      exact absurd h (by simp)

/-- The capacity of every layout is at least one record. -/
theorem capacity_pos (L : Layout) : 0 < L.capacity :=
  Nat.lt_of_lt_of_le Nat.zero_lt_one (le_max_left 1 _)

/-- Applying one operation appends exactly the bytes of its records to
the live content. -/
theorem liveBytes_applyOp (L : Layout) (s : StreamState) (op : Op) :
    liveBytes (applyOp L s op) = liveBytes s ++ (Op.recs op).flatten := by
  cases op with
  | push rec =>
    by_cases hc : s.buffer.length + 1 = L.capacity
    · simp [applyOp, pushRecord, hc, flush_buffer, liveBytes, Op.recs, List.append_assoc]
    · simp [applyOp, pushRecord, hc, liveBytes, Op.recs, List.append_assoc]
  | block data =>
    by_cases hc : s.buffer.length = 0
    · have hb : s.buffer = [] := List.length_eq_zero.mp hc
      simp [applyOp, writeBlock, hc, liveBytes, Op.recs, hb]
    · simp [applyOp, writeBlock, hc, flush_buffer, liveBytes, Op.recs, List.append_assoc]
  | flushOp => simp [applyOp, flush_buffer, liveBytes, Op.recs]

/-- Applying one operation adds its record count to the 64-bit element
counter. -/
theorem values_applyOp (L : Layout) (s : StreamState) (op : Op)
    (hv : s.values_written < M64) :
    (applyOp L s op).values_written = (s.values_written + op.count) % M64 := by
  cases op with
  | push rec =>
    by_cases hc : s.buffer.length + 1 = L.capacity
    · simp [applyOp, pushRecord, hc, flush_buffer, Op.count]
    · simp [applyOp, pushRecord, hc, Op.count]
  | block data =>
    by_cases hc : s.buffer.length = 0
    · simp [applyOp, writeBlock, hc, Op.count]
    · simp [applyOp, writeBlock, hc, flush_buffer, Op.count]
  | flushOp => simp [applyOp, flush_buffer, Op.count, Nat.mod_eq_of_lt hv]

/-- The element counter stays below the 64-bit modulus. -/
theorem values_applyOp_lt (L : Layout) (s : StreamState) (op : Op)
    (hv : s.values_written < M64) : (applyOp L s op).values_written < M64 := by
  rw [values_applyOp L s op hv]
  exact Nat.mod_lt _ (by unfold M64; omega)

/-- No operation moves the reserved header boundary. -/
theorem hep_applyOp (L : Layout) (s : StreamState) (op : Op) :
    (applyOp L s op).header_end_pos = s.header_end_pos := by
  cases op with
  | push rec =>
    by_cases hc : s.buffer.length + 1 = L.capacity
    · simp [applyOp, pushRecord, hc, flush_buffer]
    · simp [applyOp, pushRecord, hc]
  | block data =>
    by_cases hc : s.buffer.length = 0
    · simp [applyOp, writeBlock, hc]
    · simp [applyOp, writeBlock, hc, flush_buffer]
  | flushOp => simp [applyOp, flush_buffer]

/-- The buffer fill level stays strictly below the capacity. -/
theorem buffer_applyOp_lt (L : Layout) (s : StreamState) (op : Op)
    (hb : s.buffer.length < L.capacity) :
    (applyOp L s op).buffer.length < L.capacity := by
  cases op with
  | push rec =>
    by_cases hc : s.buffer.length + 1 = L.capacity
    · simp [applyOp, pushRecord, hc, flush_buffer, capacity_pos L]
    · simp [applyOp, pushRecord, hc]
      omega
  | block data =>
    by_cases hc : s.buffer.length = 0
    · simp [applyOp, writeBlock, hc]
      omega
    · simp [applyOp, writeBlock, hc, flush_buffer, capacity_pos L]
  | flushOp => simp [applyOp, flush_buffer, capacity_pos L]

/-- Running a sequence of operations: the element counter accumulates
the record count modulo 2 to the 64, the live bytes accumulate all
record bytes in order, and the header boundary is unchanged. -/
theorem runOps_spec (L : Layout) (ops : List Op) : ∀ s : StreamState,
    s.values_written < M64 →
    (runOps L s ops).values_written = (s.values_written + countRecords ops) % M64 ∧
    liveBytes (runOps L s ops) = liveBytes s ++ (opsRecords ops).flatten ∧
    (runOps L s ops).header_end_pos = s.header_end_pos ∧
    (runOps L s ops).values_written < M64 := by
  induction ops with
  | nil =>
    intro s hv
    simp [runOps, countRecords, opsRecords, Nat.mod_eq_of_lt hv, hv]
  | cons op ops ih =>
    intro s hv
    have hrun : runOps L s (op :: ops) = runOps L (applyOp L s op) ops := by
      simp [runOps]
    obtain ⟨iv, il, ihd, iv2⟩ := ih (applyOp L s op) (values_applyOp_lt L s op hv)
    refine ⟨?_, ?_, ?_, ?_⟩
    · rw [hrun, iv, values_applyOp L s op hv, Nat.mod_add_mod]
      simp [countRecords, Nat.add_assoc]
    · rw [hrun, il, liveBytes_applyOp]
      simp [opsRecords, List.append_assoc]
    · rw [hrun, ihd, hep_applyOp]
    · rw [hrun]
      exact iv2

/-- Running a sequence of operations keeps the buffer strictly below
capacity. -/
theorem runOps_buffer_lt (L : Layout) (ops : List Op) : ∀ s : StreamState,
    s.buffer.length < L.capacity → (runOps L s ops).buffer.length < L.capacity := by
  induction ops with
  | nil => intro s hb; simpa [runOps] using hb
  | cons op ops ih =>
    intro s hb
    have hrun : runOps L s (op :: ops) = runOps L (applyOp L s op) ops := by
      simp [runOps]
    rw [hrun]
    exact ih _ (buffer_applyOp_lt L s op hb)

/-- Closing depends only on the counter, the header boundary, and the
live byte content. -/
theorem closeStream_eq (L : Layout) (s : StreamState) :
    closeStream L s =
      match wrap_up s.values_written s.header_end_pos L.labels L.dtypes L.sizes with
      | .error e => .error e
      | .ok w => .ok (w ++ (liveBytes s).drop w.length) := rfl

/-- Flattened length of a list of equal-length records. -/
theorem flatten_length_of_wf (stride : Nat) (data : List (List Nat))
    (h : ∀ r ∈ data, r.length = stride) : data.flatten.length = data.length * stride := by
  induction data with
  | nil => simp
  | cons d ds ih =>
    have hd : d.length = stride := h d (by simp)
    have hds := ih (fun r hr => h r (by simp [hr]))
    simp [hd, hds, Nat.succ_mul, Nat.add_comm]

/-- Each operation contributes its count of records. -/
theorem opsRecords_count (ops : List Op) : (opsRecords ops).length = countRecords ops := by
  induction ops with
  | nil => simp [opsRecords, countRecords]
  | cons op ops ih =>
    have hone : (Op.recs op).length = op.count := by
      cases op <;> simp [Op.recs, Op.count]
    simp only [opsRecords, countRecords, List.map_cons, List.flatten_cons, List.sum_cons,
      List.length_append, hone]
    simp only [opsRecords, countRecords] at ih
    rw [ih]

/-- Records collected from well-formed operations all have the stride as
length. -/
theorem mem_opsRecords (stride : Nat) (ops : List Op) (hwf : wfOps stride ops) :
    ∀ r ∈ opsRecords ops, r.length = stride := by
  intro r hr
  simp only [opsRecords, List.mem_flatten, List.mem_map] at hr
  obtain ⟨l, ⟨op, hop, rfl⟩, hrl⟩ := hr
  exact hwf op hop r hrl

/-- The flattened length of well-formed records is count times stride. -/
theorem opsRecords_length (stride : Nat) (ops : List Op) (hwf : wfOps stride ops) :
    (opsRecords ops).flatten.length = countRecords ops * stride := by
  rw [flatten_length_of_wf stride _ (mem_opsRecords stride ops hwf), opsRecords_count]

/-- Every successfully rendered header is at least 16 bytes long. -/
theorem renderHeader_len_ge (labels : List (List Nat)) (dtypes sizes : List Nat) (k : Nat)
    (H : List Nat) (h : renderHeader labels dtypes sizes k = .ok H) : 16 ≤ H.length := by
  have hok := okLayout_of_render labels dtypes sizes k H h
  rw [renderHeader_eq_finalize labels dtypes sizes k hok] at h
  obtain ⟨hb, hl⟩ := finalize_header_ok _ _ h
  have := padLen_ge (dictFor labels dtypes sizes k).length
  omega

/-- The zero-filled initial bytes have exactly the header length. -/
theorem initBytes_length (H : List Nat) (h : 8 ≤ H.length) :
    (initBytes H).length = H.length := by
  simp [initBytes]
  omega

/-- C2: for every element count k up to the maximum 64-bit value, the
header rendered at close for shape k is no longer than the placeholder
header rendered for the maximum count, and the patched header produced
by wrap_up has exactly the placeholder length, so the patch never grows
the header region. -/
theorem C2_header_length_invariance (labels : List (List Nat)) (dtypes sizes : List Nat)
    (H : List Nat) (k : Nat)
    (hmax : renderHeader labels dtypes sizes (M64 - 1) = .ok H) (hk : k < M64) :
    ∃ Hk W, renderHeader labels dtypes sizes k = .ok Hk ∧ Hk.length ≤ H.length ∧
      wrap_up k H.length labels dtypes sizes = .ok W ∧ W.length = H.length := by
  obtain ⟨hrk, hle⟩ := renderHeader_ok_of_le labels dtypes sizes H hmax k (by omega)
  obtain ⟨W, hW, hWlen, _⟩ := wrap_up_spec labels dtypes sizes H hmax k hk
  refine ⟨_, W, hrk, ?_, hW, hWlen⟩
  simp only [List.length_append, preamble_length]
  have := padDict_length (dictFor labels dtypes sizes k)
  simp only [padDict_eq] at this
  simp only [List.length_append] at this ⊢
  omega

/-- C5: constructing a stream over a structured record type (more than
one field) with a label container whose length differs from the field
count always fails with the layout-mismatch error; the error is raised
before any file state exists, so the failed construction yields no
stream and no file bytes. -/
theorem C5_layout_mismatch (labels : List (List Nat)) (tupleSize : Nat)
    (dtypes sizes : List Nat) (hmulti : 1 < tupleSize) (hne : labels.length ≠ tupleSize) :
    NpyStream.init labels tupleSize dtypes sizes = .error .layoutMismatch := by
  unfold NpyStream.init
  by_cases h0 : labels.length = 0
  · rw [if_pos (by simpa using h0), if_neg (by simp; omega)]
  · rw [if_neg (by simpa using h0), if_pos (by simpa using hne)]

/-- C7: flushing with an empty buffer changes nothing at all: the file
bytes, the counter, the header boundary and the buffer are all exactly
as before, so the call is idempotent and leaves the file byte-for-byte
identical. -/
theorem C7_flush_empty_noop (s : StreamState) (h : s.buffer = []) : flush_buffer s = s := by
  cases s
  simp_all [flush_buffer]

/-- C8: for every record layout the buffer capacity in records is the
maximum of one and 256 divided by the record stride; it is at least one
record, and the buffer occupies at most 256 bytes whenever a single
record fits in 256 bytes, and exactly one record otherwise. -/
theorem C8_buffer_capacity (sizes : List Nat) (h : 0 < sum_sizes sizes) :
    buffer_capacity sizes = max 1 (256 / sum_sizes sizes) ∧
    1 ≤ buffer_capacity sizes ∧
    buffer_capacity sizes * sum_sizes sizes ≤ max 256 (sum_sizes sizes) := by
  refine ⟨rfl, le_max_left 1 _, ?_⟩
  by_cases hle : sum_sizes sizes ≤ 256
  · have h1 : 1 ≤ 256 / sum_sizes sizes := (Nat.one_le_div_iff h).mpr hle
    have hcap : buffer_capacity sizes = 256 / sum_sizes sizes := max_eq_right h1
    rw [hcap]
    exact le_trans (Nat.div_mul_le_self 256 _) (le_max_left _ _)
  · have hz : 256 / sum_sizes sizes = 0 := Nat.div_eq_of_lt (by omega)
    have hcap : buffer_capacity sizes = 1 := by
      rw [buffer_capacity, hz]
      simp
    rw [hcap, one_mul]
    exact le_max_right _ _

/-- C9: after construction the buffer is empty, and after any sequence
of public operations the buffer fill level is strictly below the
capacity, so the slot written by the next append is always in bounds
and the fixed-capacity buffer never overflows. -/
theorem C9_buffer_invariant (L : Layout) (tupleSize : Nat) (s0 : StreamState) (ops : List Op)
    (hinit : NpyStream.init L.labels tupleSize L.dtypes L.sizes = .ok s0) :
    s0.buffer.length < L.capacity ∧ (runOps L s0 ops).buffer.length < L.capacity := by
  obtain ⟨H, _, hs0⟩ := init_ok _ _ _ _ _ hinit
  subst hs0
  have h0 : (StreamState.mk (initBytes H) H.length 0 []).buffer.length < L.capacity := by
    simpa using capacity_pos L
  exact ⟨h0, runOps_buffer_lt L ops _ h0⟩

/-- Pushing a list of records one at a time appends exactly that many
records. -/
theorem countRecords_pushes (recs : List (List Nat)) :
    countRecords (recs.map Op.push) = recs.length := by
  induction recs with
  | nil => simp [countRecords]
  | cons r rs ih =>
    simp only [List.map_cons, countRecords, List.sum_cons, Op.count, List.length_cons] at ih ⊢
    omega

/-- Pushing a list of records one at a time appends exactly those
records. -/
theorem opsRecords_pushes (recs : List (List Nat)) :
    opsRecords (recs.map Op.push) = recs := by
  induction recs with
  | nil => simp [opsRecords]
  | cons r rs ih =>
    simp only [List.map_cons, opsRecords, List.flatten_cons, Op.recs] at ih ⊢
    simp only [List.map_map] at ih ⊢
    simp [ih]

/-- C1: for every sequence of operations appending k records in total to
a freshly constructed stream, closing succeeds and produces the file
consisting of the patched header followed by exactly the appended
records; the header occupies exactly the reserved length, carries the
shape clause of count k, and the total file size is the reserved header
length plus k times the record stride. -/
theorem C1_roundtrip_count (L : Layout) (tupleSize : Nat) (s0 : StreamState) (ops : List Op)
    (k : Nat) (hinit : NpyStream.init L.labels tupleSize L.dtypes L.sizes = .ok s0)
    (hwf : wfOps L.stride ops) (hk : countRecords ops = k) (hklt : k < M64) :
    ∃ W, closeStream L (runOps L s0 ops) = .ok (W ++ (opsRecords ops).flatten) ∧
      W.length = s0.header_end_pos ∧
      (∃ u v, W = u ++ shapeMark k ++ v) ∧
      (W ++ (opsRecords ops).flatten).length = s0.header_end_pos + k * L.stride := by
  obtain ⟨H, hrH, hs0⟩ := init_ok _ _ _ _ _ hinit
  subst hs0
  have hH16 : 16 ≤ H.length := renderHeader_len_ge _ _ _ _ _ hrH
  have hv0 : (StreamState.mk (initBytes H) H.length 0 []).values_written < M64 := by
    show 0 < M64
    unfold M64
    omega
  obtain ⟨hvals, hlive, hhep, _⟩ := runOps_spec L ops (StreamState.mk (initBytes H) H.length 0 []) hv0
  obtain ⟨W, hwup, hWlen, hmark⟩ := wrap_up_spec L.labels L.dtypes L.sizes H hrH k hklt
  have hvals2 : (runOps L (StreamState.mk (initBytes H) H.length 0 []) ops).values_written = k := by
    rw [hvals]
    show (0 + countRecords ops) % M64 = k
    rw [Nat.zero_add, hk, Nat.mod_eq_of_lt hklt]
  have hhep2 : (runOps L (StreamState.mk (initBytes H) H.length 0 []) ops).header_end_pos =
      H.length := hhep
  have hclose : closeStream L (runOps L (StreamState.mk (initBytes H) H.length 0 []) ops) =
      .ok (W ++ (liveBytes (runOps L (StreamState.mk (initBytes H) H.length 0 []) ops)).drop
        W.length) := by
    rw [closeStream_eq, hvals2, hhep2, hwup]
  have hliveval : liveBytes (runOps L (StreamState.mk (initBytes H) H.length 0 []) ops) =
      initBytes H ++ (opsRecords ops).flatten := by
    rw [hlive]
    simp [liveBytes]
  have hdropW : (liveBytes (runOps L (StreamState.mk (initBytes H) H.length 0 []) ops)).drop
      W.length = (opsRecords ops).flatten := by
    rw [hliveval, hWlen]
    exact List.drop_left' (initBytes_length H (by omega))
  refine ⟨W, ?_, ?_, hmark, ?_⟩
  · rw [hclose, hdropW]
  · exact hWlen
  · rw [List.length_append, hWlen, opsRecords_length L.stride ops hwf, hk]

/-- C10: on a freshly constructed stream, appending records one at a
time through the buffered push path and then closing gives exactly the
same final file as appending the same records once as a contiguous
block through the bypass write path; the final element counters agree
as well. -/
theorem C10_block_write_equiv (L : Layout) (tupleSize : Nat) (s0 : StreamState)
    (recs : List (List Nat))
    (hinit : NpyStream.init L.labels tupleSize L.dtypes L.sizes = .ok s0) :
    closeStream L (runOps L s0 (recs.map Op.push)) = closeStream L (writeBlock s0 recs) ∧
    (runOps L s0 (recs.map Op.push)).values_written = (writeBlock s0 recs).values_written := by
  obtain ⟨H, hrH, hs0⟩ := init_ok _ _ _ _ _ hinit
  subst hs0
  have hv0 : (StreamState.mk (initBytes H) H.length 0 []).values_written < M64 := by
    show 0 < M64
    unfold M64
    omega
  obtain ⟨hvals, hlive, hhep, _⟩ :=
    runOps_spec L (recs.map Op.push) (StreamState.mk (initBytes H) H.length 0 []) hv0
  have hwb : writeBlock (StreamState.mk (initBytes H) H.length 0 []) recs =
      applyOp L (StreamState.mk (initBytes H) H.length 0 []) (Op.block recs) := rfl
  have hv : (runOps L (StreamState.mk (initBytes H) H.length 0 []) (recs.map Op.push)).values_written =
      (writeBlock (StreamState.mk (initBytes H) H.length 0 []) recs).values_written := by
    rw [hvals, hwb, values_applyOp L _ _ hv0, countRecords_pushes]
    rfl
  have hh : (runOps L (StreamState.mk (initBytes H) H.length 0 []) (recs.map Op.push)).header_end_pos =
      (writeBlock (StreamState.mk (initBytes H) H.length 0 []) recs).header_end_pos := by
    rw [hhep, hwb, hep_applyOp]
  have hl : liveBytes (runOps L (StreamState.mk (initBytes H) H.length 0 []) (recs.map Op.push)) =
      liveBytes (writeBlock (StreamState.mk (initBytes H) H.length 0 []) recs) := by
    rw [hlive, hwb, liveBytes_applyOp, opsRecords_pushes]
    rfl
  refine ⟨?_, hv⟩
  rw [closeStream_eq, closeStream_eq, hv, hh, hl]

/-- C4 (amended): after a successful construction the file holds the
first eight bytes of the rendered maximum-count placeholder header
(magic, NUMPY, version 1.0) followed by zero bytes up to the reserved
header length; the on-disk bytes of an abandoned stream are this
zero-filled region, not the rendered placeholder header itself. -/
theorem C4_init_zeroed_placeholder (labels : List (List Nat)) (tupleSize : Nat)
    (dtypes sizes : List Nat) (s0 : StreamState) (H : List Nat)
    (hinit : NpyStream.init labels tupleSize dtypes sizes = .ok s0)
    (hH : renderHeader labels dtypes sizes (M64 - 1) = .ok H) :
    s0.fileBytes = H.take 8 ++ List.replicate (H.length - 8) 0 ∧
    s0.header_end_pos = H.length ∧ s0.fileBytes.length = H.length := by
  obtain ⟨H2, hrH2, hs0⟩ := init_ok _ _ _ _ _ hinit
  rw [hrH2] at hH
  injection hH with hHe
  subst hs0
  rw [← hHe]
  have h16 : 16 ≤ H2.length := renderHeader_len_ge _ _ _ _ _ hrH2
  exact ⟨rfl, rfl, initBytes_length H2 (by omega)⟩

/-- Witness for the amended C4 statement on the concrete scalar f8
stream. -/
theorem C4_init_zeroed_placeholder_witness :
    streamF8.fileBytes = placeholderF8.take 8 ++ List.replicate (placeholderF8.length - 8) 0 ∧
    streamF8.header_end_pos = placeholderF8.length ∧
    streamF8.fileBytes.length = placeholderF8.length :=
  C4_init_zeroed_placeholder [] 1 [102] [8] streamF8 placeholderF8 (by decide) (by decide)

/-- C4 counterexample: for the concrete scalar f8 stream, the bytes
written at open time are not the rendered maximum-count placeholder
header: the regions have the same length, but byte 8 on disk is zero
while byte 8 of the rendered placeholder is 86 (the dictionary length),
so an abandoned file does not carry a valid maximum-count header. -/
theorem C4_counterexample :
    (initFile (NpyStream.init [] 1 [102] [8])).take
        (initHep (NpyStream.init [] 1 [102] [8])) ≠
      okBytes (renderHeader [] [102] [8] (M64 - 1)) ∧
    (initFile (NpyStream.init [] 1 [102] [8])).length =
      (okBytes (renderHeader [] [102] [8] (M64 - 1))).length ∧
    (initFile (NpyStream.init [] 1 [102] [8])).getD 8 999 = 0 ∧
    (okBytes (renderHeader [] [102] [8] (M64 - 1))).getD 8 999 = 86 := by
  decide

/-- C3 evaluated at the failing input (one field, 169-character label,
zero records): the final padded dictionary length is 262, whose
little-endian bytes at positions 8 and 9 would be 6 and 1 with byte 7
(the minor version, 0 before the patch) untouched; instead the code
leaves the file with byte 7 equal to 1, byte 8 equal to 6 and byte 9
equal to 0. -/
theorem C3_patch_bytes_bug :
    isOk run169 = true ∧
    (okBytes run169).length = 272 ∧
    ((okBytes run169).length - 10) % 256 = 6 ∧
    ((okBytes run169).length - 10) / 256 = 1 ∧
    (okBytes run169).getD 7 999 = 1 ∧
    (okBytes run169).getD 8 999 = 6 ∧
    (okBytes run169).getD 9 999 = 0 ∧
    (initFile (NpyStream.init [label169] 1 [102] [8])).getD 7 999 = 0 := by
  decide

/-- C6: the two-field layout with labels a and b over int32 and float32,
appended once with the tuple of 7 and 2.5 (whose IEEE-754 single
encoding has sign 0, exponent field 128 and fraction field 2097152, as
the rational identity states), yields a dictionary containing the descr
list with both dtype codes preceded by the little-endian marker, and an
eight-byte record of the int32 bytes followed by the float32 bytes,
packed contiguously in declared order. -/
theorem C6_structured_scenario :
    (2.5 : ℚ) = (1 + (2097152 : ℚ) / 2 ^ 23) * 2 ^ (128 - 127) ∧
    rec6 = [7, 0, 0, 0, 0, 0, 32, 64] ∧
    isOk run6 = true ∧
    containsBytes descr6 (okBytes run6) = true ∧
    initHep (NpyStream.init [[97], [98]] 2 [105, 102] [4, 4]) = 112 ∧
    (okBytes run6).drop 112 = [7, 0, 0, 0, 0, 0, 32, 64] ∧
    (okBytes run6).length = 120 := by
  refine ⟨by norm_num, by decide, by decide, by decide, by decide, by decide, by decide⟩

/-- Witness for C1 on the concrete scalar f8 stream with one buffered
push and one block write of two records. -/
theorem C1_roundtrip_count_witness :
    ∃ W, closeStream layoutF8 (runOps layoutF8 streamF8 ops8) =
        .ok (W ++ (opsRecords ops8).flatten) ∧
      W.length = streamF8.header_end_pos ∧
      (∃ u v, W = u ++ shapeMark 3 ++ v) ∧
      (W ++ (opsRecords ops8).flatten).length = streamF8.header_end_pos + 3 * layoutF8.stride :=
  C1_roundtrip_count layoutF8 1 streamF8 ops8 3 (by decide) (by decide) (by decide) (by decide)

/-- Witness for C2 on the concrete scalar f8 layout at count zero. -/
theorem C2_header_length_invariance_witness :
    ∃ Hk W, renderHeader [] [102] [8] 0 = .ok Hk ∧ Hk.length ≤ placeholderF8.length ∧
      wrap_up 0 placeholderF8.length [] [102] [8] = .ok W ∧
      W.length = placeholderF8.length :=
  C2_header_length_invariance [] [102] [8] placeholderF8 0 (by decide) (by decide)

/-- Witness for C5: one label for a two-field record type. -/
theorem C5_layout_mismatch_witness :
    NpyStream.init [[97]] 2 [105, 102] [4, 4] = .error .layoutMismatch :=
  C5_layout_mismatch [[97]] 2 [105, 102] [4, 4] (by decide) (by decide)

/-- Witness for C7 on a concrete state with an empty buffer. -/
theorem C7_flush_empty_noop_witness :
    flush_buffer (StreamState.mk [1, 2] 96 0 []) = StreamState.mk [1, 2] 96 0 [] :=
  C7_flush_empty_noop _ rfl

/-- Witness for C8 on the two-field four-plus-four-byte layout. -/
theorem C8_buffer_capacity_witness :
    buffer_capacity [4, 4] = max 1 (256 / sum_sizes [4, 4]) ∧ 1 ≤ buffer_capacity [4, 4] ∧
      buffer_capacity [4, 4] * sum_sizes [4, 4] ≤ max 256 (sum_sizes [4, 4]) :=
  C8_buffer_capacity [4, 4] (by decide)

/-- Witness for C9 on the concrete scalar f8 stream. -/
theorem C9_buffer_invariant_witness :
    streamF8.buffer.length < layoutF8.capacity ∧
    (runOps layoutF8 streamF8 [Op.push [1, 0, 0, 0, 0, 0, 0, 0]]).buffer.length <
      layoutF8.capacity :=
  C9_buffer_invariant layoutF8 1 streamF8 [Op.push [1, 0, 0, 0, 0, 0, 0, 0]] (by decide)

/-- Witness for C10 on the concrete scalar f8 stream with one record. -/
theorem C10_block_write_equiv_witness :
    closeStream layoutF8 (runOps layoutF8 streamF8 ([[1, 2, 3, 4, 5, 6, 7, 8]].map Op.push)) =
      closeStream layoutF8 (writeBlock streamF8 [[1, 2, 3, 4, 5, 6, 7, 8]]) ∧
    (runOps layoutF8 streamF8 ([[1, 2, 3, 4, 5, 6, 7, 8]].map Op.push)).values_written =
      (writeBlock streamF8 [[1, 2, 3, 4, 5, 6, 7, 8]]).values_written :=
  C10_block_write_equiv layoutF8 1 streamF8 [[1, 2, 3, 4, 5, 6, 7, 8]] (by decide)

end NpyVerify
